import Mathlib

/-!
Verification development for the coordinate-synchronization engine in
`src/terminal-hover-editor-positioning.ts` (class `TerminalHoverEditorPositioning`).

The embedding uses exact rational arithmetic (ℚ) for all geometry.  DOM style
values written as `"${x}px"` and read back with `parseFloat` are modelled as the
rational `x` itself; a style property that was never set reads back as `0`
(`parseFloat(...) || 0`), modelled with `Option ℚ` and `Option.getD 0`.
-/

/-- Converts a scalar value from screen units (pixels) to graph units
(`screenToGraph` in the source): `screenValue / zoom`. -/
def screenToGraph (screenValue zoom : ℚ) : ℚ := screenValue / zoom

/-- Converts a scalar value from graph units to screen units
(`graphToScreen` in the source): `graphValue * zoom`. -/
def graphToScreen (graphValue zoom : ℚ) : ℚ := graphValue * zoom

/-- `HoverEditorState`: per-panel offset and size stored in zoom-independent
graph units (the interface of the same name in the source). -/
structure HoverEditorState where
  offsetX : ℚ
  offsetY : ℚ
  width : ℚ
  height : ℚ
deriving DecidableEq

/-- A bounding client rectangle (only the `left`/`top` fields are used by the
source for positioning). -/
structure Rect where
  left : ℚ
  top : ℚ
deriving DecidableEq

/-- A cytoscape rendered bounding box (`renderedBoundingBox()`); the source
uses its `x1`/`y1` corner. -/
structure BBox where
  x1 : ℚ
  y1 : ℚ
deriving DecidableEq

/-- The inline style record of a popover element.  `left`, `top`, `width`,
`height` hold the numeric value of the `px` string, or `none` when never set;
`parseFloat(style.left) || 0` is modelled by `Option.getD 0`. -/
structure PanelStyle where
  position : String
  left : Option ℚ
  top : Option ℚ
  width : Option ℚ
  height : Option ℚ
  zIndex : String
deriving DecidableEq

/-- The geometry a single tick reads from the environment: the cytoscape zoom,
the container bounding rectangle and the tracked node's rendered bounding box. -/
structure GeomEnv where
  zoom : ℚ
  containerRect : Rect
  nodeBox : BBox
deriving DecidableEq

/-- One tick of the drag-divergence detector (`pollForDrag` in the source).
It reads geometry and the panel's current style, compares the actual
`left`/`top` against the expected screen position, and when either axis
diverges by more than the 2-pixel threshold folds the full pixel delta
(converted to graph units) into the state's offsets.  It returns the new
state together with the (untouched) style. -/
def pollForDrag (env : GeomEnv) (state : HoverEditorState) (style : PanelStyle) :
    HoverEditorState × PanelStyle :=
  let nodeViewportX := env.containerRect.left + env.nodeBox.x1
  let nodeViewportY := env.containerRect.top + env.nodeBox.y1
  let expectedX := nodeViewportX + graphToScreen state.offsetX env.zoom
  let expectedY := nodeViewportY + graphToScreen state.offsetY env.zoom
  let actualX := (style.left).getD 0
  let actualY := (style.top).getD 0
  let threshold : ℚ := 2
  let dx := actualX - expectedX
  let dy := actualY - expectedY
  if threshold < |dx| ∨ threshold < |dy| then
    ({ state with
        offsetX := state.offsetX + screenToGraph dx env.zoom,
        offsetY := state.offsetY + screenToGraph dy env.zoom }, style)
  else
    (state, style)

/-- The update record computed for one editor during the read phase of
`sharedUpdate` (the element of the `updates` array in the source). -/
structure PanelUpdate where
  x : ℚ
  y : ℚ
  width : ℚ
  height : ℚ
deriving DecidableEq

/-- The read-phase computation of `sharedUpdate` for one tracked editor:
node viewport origin plus the model offset converted at the current zoom,
and the model size converted at the current zoom. -/
def computeUpdate (zoom : ℚ) (containerRect : Rect) (nodeBox : BBox)
    (state : HoverEditorState) : PanelUpdate :=
  let nodeViewportX := containerRect.left + nodeBox.x1
  let nodeViewportY := containerRect.top + nodeBox.y1
  { x := nodeViewportX + graphToScreen state.offsetX zoom
    y := nodeViewportY + graphToScreen state.offsetY zoom
    width := graphToScreen state.width zoom
    height := graphToScreen state.height zoom }

/-- The write phase of `sharedUpdate` for one editor: overwrite the popover's
style with `position: fixed`, the computed `left`/`top`/`width`/`height` and
`z-index: 1000`. -/
def applyUpdate (u : PanelUpdate) : PanelStyle :=
  { position := "fixed"
    left := some u.x
    top := some u.y
    width := some u.width
    height := some u.height
    zIndex := "1000" }

/-- The initial `HoverEditorState` computed by `pinHoverEditorToNode`:
offset is the panel's screen origin minus the node's viewport origin, divided
by the zoom at pin time; width is the panel's pixel width divided by zoom;
height is 1.5 times the panel's pixel height divided by zoom. -/
def initState (initialZoom : ℚ) (containerRect : Rect) (nodeBox : BBox)
    (popoverLeft popoverTop popoverWidth popoverHeight : ℚ) : HoverEditorState :=
  let nodeViewportX := containerRect.left + nodeBox.x1
  let nodeViewportY := containerRect.top + nodeBox.y1
  let initialScreenOffsetX := popoverLeft - nodeViewportX
  let initialScreenOffsetY := popoverTop - nodeViewportY
  let adjustedHeight := popoverHeight * (3 / 2)
  { offsetX := screenToGraph initialScreenOffsetX initialZoom
    offsetY := screenToGraph initialScreenOffsetY initialZoom
    width := screenToGraph popoverWidth initialZoom
    height := screenToGraph adjustedHeight initialZoom }

/-- The geometry snapshot read at pin time (`pinHoverEditorToNode` reads the
zoom, the cached container rectangle, the node's rendered bounding box and
the popover's current rectangle and offset dimensions). -/
structure PinGeom where
  zoom : ℚ
  containerRect : Rect
  nodeBox : BBox
  popoverLeft : ℚ
  popoverTop : ℚ
  popoverWidth : ℚ
  popoverHeight : ℚ
deriving DecidableEq

/-- A `TrackedEditor` record of the lifecycle tracker.  The element is an
opaque identity; each live registration (two graph event subscriptions, three
observers, the window-resize listener and the drag-poll interval) is an opaque
handle drawn from a fresh-token counter. -/
structure TrackedEditor where
  elem : Nat
  state : HoverEditorState
  viewportSub : Nat
  positionSub : Nat
  resizeObsSub : Nat
  mutationObsSub : Nat
  containerObsSub : Nat
  windowResizeSub : Nat
  dragPollSub : Nat
deriving DecidableEq

/-- The seven registration handles held by one tracked editor, in the order
the source's `cleanup` releases them. -/
def TrackedEditor.tokens (te : TrackedEditor) : List Nat :=
  [te.viewportSub, te.positionSub, te.resizeObsSub, te.mutationObsSub,
   te.containerObsSub, te.windowResizeSub, te.dragPollSub]

/-- Association-list lookup modelling `Map.get` on the tracking map. -/
def mapLookup : List (String × TrackedEditor) → String → Option TrackedEditor
  | [], _ => none
  | p :: rest, id => if p.1 = id then some p.2 else mapLookup rest id

/-- `Map.set`: replace the existing binding in place, else append. -/
def mapSet (m : List (String × TrackedEditor)) (id : String) (te : TrackedEditor) :
    List (String × TrackedEditor) :=
  if (mapLookup m id).isSome then
    m.map (fun p => if p.1 = id then (id, te) else p)
  else
    m ++ [(id, te)]

/-- The state of one `TerminalHoverEditorPositioning` instance: its tracking
map, the set of currently live registration handles, and the fresh-token
counter used to allocate new handles. -/
structure SysState where
  trackingMap : List (String × TrackedEditor)
  liveSubs : List Nat
  nextToken : Nat
deriving DecidableEq

/-- The empty instance state (a freshly constructed positioning engine). -/
def initSys : SysState :=
  { trackingMap := [], liveSubs := [], nextToken := 0 }

/-- Releasing one registration handle (an `off`, `disconnect`,
`removeEventListener` or `clearInterval` call). -/
def removeSub (subs : List Nat) (t : Nat) : List Nat :=
  subs.filter (fun u => ¬(u = t))

/-- The teardown body of the `cleanup(terminalId)` method: release the
editor's seven registrations in source order — including `clearInterval` on
the interval id stored on the tracked-editor record — then delete the
identifier from the tracking map. -/
def cleanupEditor (st : SysState) (id : String) (te : TrackedEditor) : SysState :=
  let subs0 := removeSub st.liveSubs te.viewportSub
  let subs1 := removeSub subs0 te.positionSub
  let subs2 := removeSub subs1 te.resizeObsSub
  let subs3 := removeSub subs2 te.mutationObsSub
  let subs4 := removeSub subs3 te.containerObsSub
  let subs5 := removeSub subs4 te.windowResizeSub
  let subs6 := removeSub subs5 te.dragPollSub
  { trackingMap := st.trackingMap.filter (fun p => ¬(p.1 = id))
    liveSubs := subs6
    nextToken := st.nextToken }

/-- The `cleanup(terminalId)` method: look the identifier up; tear the editor
down when present, otherwise do nothing. -/
def cleanup (st : SysState) (id : String) : SysState :=
  match mapLookup st.trackingMap id with
  | some te => cleanupEditor st id te
  | none => st

/-- The `clearInterval(dragPollInterval)` call of the `cleanup` closure.  The
captured local `dragPollInterval` is declared but never assigned — the
interval id returned by `window.setInterval` is stored only on the
tracked-editor record (`trackedEditor.dragPollInterval`) — so the closure
passes `undefined` (modelled as `none`) and the call removes nothing. -/
def clearIntervalLocal (subs : List Nat) : Option Nat → List Nat
  | some t => removeSub subs t
  | none => subs

/-- The teardown run by the `cleanup` closure captured inside
`pinHoverEditorToNode`: it releases the two graph subscriptions, the three
observers and the window-resize listener, then calls `clearInterval` on the
never-assigned local `dragPollInterval` — a no-op that leaves the drag-poll
interval registration live — and deletes the identifier from the tracking
map. -/
def cleanupClosure (st : SysState) (id : String) (te : TrackedEditor) : SysState :=
  let subs0 := removeSub st.liveSubs te.viewportSub
  let subs1 := removeSub subs0 te.positionSub
  let subs2 := removeSub subs1 te.resizeObsSub
  let subs3 := removeSub subs2 te.mutationObsSub
  let subs4 := removeSub subs3 te.containerObsSub
  let subs5 := removeSub subs4 te.windowResizeSub
  let subs6 := clearIntervalLocal subs5 none
  { trackingMap := st.trackingMap.filter (fun p => ¬(p.1 = id))
    liveSubs := subs6
    nextToken := st.nextToken }

/-- The `MutationObserver` callback registered by `pinHoverEditorToNode`:
when the popover element is no longer contained in `document.body`
(`inDocument = false`), run the captured `cleanup` closure for this editor;
otherwise do nothing. -/
def mutationObserverTick (st : SysState) (id : String) (te : TrackedEditor)
    (inDocument : Bool) : SysState :=
  if inDocument then st else cleanupClosure st id te

/-- Whether an interval timer with handle `t` can still fire a tick: only
while its registration is live (not yet passed to `clearInterval`). -/
def timerCanFire (st : SysState) (t : Nat) : Bool :=
  decide (t ∈ st.liveSubs)

/-- `pinHoverEditorToNode(terminalId, node, popoverEl)`: if the identifier is
already tracked, run the full teardown first; compute the initial state from
the pin-time geometry; allocate seven fresh registration handles; store the
tracked editor in the map. -/
def pin (st : SysState) (id : String) (elem : Nat) (g : PinGeom) : SysState :=
  let st1 := if (mapLookup st.trackingMap id).isSome then cleanup st id else st
  let n := st1.nextToken
  let te : TrackedEditor :=
    { elem := elem
      state := initState g.zoom g.containerRect g.nodeBox
        g.popoverLeft g.popoverTop g.popoverWidth g.popoverHeight
      viewportSub := n
      positionSub := n + 1
      resizeObsSub := n + 2
      mutationObsSub := n + 3
      containerObsSub := n + 4
      windowResizeSub := n + 5
      dragPollSub := n + 6 }
  { trackingMap := mapSet st1.trackingMap id te
    liveSubs := st1.liveSubs ++ [n, n + 1, n + 2, n + 3, n + 4, n + 5, n + 6]
    nextToken := n + 7 }

/-- `cleanupAll()`: collect the currently tracked identifiers and clean each
one up in turn. -/
def cleanupAll (st : SysState) : SysState :=
  (st.trackingMap.map Prod.fst).foldl cleanup st

/-- The operations a caller can perform on one positioning instance. -/
inductive Op where
  | pinTo : String → Nat → PinGeom → Op
  | unpin : String → Op
  | unpinAll : Op
deriving DecidableEq

/-- Apply one operation to an instance state. -/
def applyOp (st : SysState) : Op → SysState
  | .pinTo id elem g => pin st id elem g
  | .unpin id => cleanup st id
  | .unpinAll => cleanupAll st

/-- Run a sequence of operations from a starting state. -/
def runOps (st : SysState) (ops : List Op) : SysState :=
  ops.foldl applyOp st

/-- Number of tracking-map entries carrying a given identifier. -/
def countKey (m : List (String × TrackedEditor)) (id : String) : Nat :=
  (m.filter (fun p => p.1 = id)).length

/-- The data `sharedUpdate` needs from one collected editor: the popover
element identity, the node's rendered bounding box read during the read
phase, and the editor's state. -/
structure CollectedEditor where
  elem : Nat
  nodeBox : BBox
  state : HoverEditorState
deriving DecidableEq

/-- The geometry `sharedUpdate` reads once per pass from the (shared) graph
view: the zoom and the container bounding rectangle. -/
structure PassEnv where
  zoom : ℚ
  containerRect : Rect
deriving DecidableEq

/-- Collect every tracked editor from every instance, in instance order
(the `allEditors` array of `sharedUpdate`). -/
def collectAll : List (List (String × CollectedEditor)) → List CollectedEditor
  | [] => []
  | m :: rest => m.map Prod.snd ++ collectAll rest

/-- The document's inline styles, keyed by element identity. -/
def domLookup : List (Nat × PanelStyle) → Nat → Option PanelStyle
  | [], _ => none
  | p :: rest, e => if p.1 = e then some p.2 else domLookup rest e

/-- Overwrite the style of one element (a DOM write). -/
def setStyle (dom : List (Nat × PanelStyle)) (e : Nat) (s : PanelStyle) :
    List (Nat × PanelStyle) :=
  dom.map (fun p => if p.1 = e then (e, s) else p)

/-- The static `sharedUpdate` pass: collect all editors from all instances;
when none are tracked, clear the pending flag and return; otherwise read the
zoom and container rectangle once, compute each editor's update (read phase),
apply every update (write phase), and clear the pending flag.  It returns the
new value of the pending flag together with the new document styles; the
prior flag value is never consulted. -/
def sharedUpdate (env : PassEnv) (instanceMaps : List (List (String × CollectedEditor)))
    (updatePending : Bool) (dom : List (Nat × PanelStyle)) :
    Bool × List (Nat × PanelStyle) :=
  let _ := updatePending
  let allEditors := collectAll instanceMaps
  if allEditors.length = 0 then
    (false, dom)
  else
    let updates := allEditors.map (fun e =>
      (e.elem, computeUpdate env.zoom env.containerRect e.nodeBox e.state))
    (false, updates.foldl (fun d u => setStyle d u.1 (applyUpdate u.2)) dom)

/-- An observable step of one `sharedUpdate` execution: a geometry read or a
DOM write. -/
inductive PassEvent where
  | readZoom : PassEvent
  | readContainerRect : PassEvent
  | readNodeBox : Nat → PassEvent
  | writeStyle : Nat → PassEvent
deriving DecidableEq

/-- Whether an event is a geometry read. -/
def PassEvent.isRead : PassEvent → Bool
  | .readZoom => true
  | .readContainerRect => true
  | .readNodeBox _ => true
  | .writeStyle _ => false

/-- Whether an event is a DOM write. -/
def PassEvent.isWrite : PassEvent → Bool
  | .readZoom => false
  | .readContainerRect => false
  | .readNodeBox _ => false
  | .writeStyle _ => true

/-- The read phase of one pass: zoom, container rectangle, then every
collected editor's node bounding box. -/
def readEvents (allEditors : List CollectedEditor) : List PassEvent :=
  PassEvent.readZoom :: PassEvent.readContainerRect ::
    allEditors.map (fun e => PassEvent.readNodeBox e.elem)

/-- The write phase of one pass: every collected editor's style write. -/
def writeEvents (allEditors : List CollectedEditor) : List PassEvent :=
  allEditors.map (fun e => PassEvent.writeStyle e.elem)

/-- The event trace of one `sharedUpdate` execution, following the source's
control flow: the early return when nothing is tracked touches no geometry
and no style; otherwise the whole read phase precedes the write phase. -/
def sharedUpdateTrace (instanceMaps : List (List (String × CollectedEditor))) :
    List PassEvent :=
  let allEditors := collectAll instanceMaps
  if allEditors.length = 0 then []
  else readEvents allEditors ++ writeEvents allEditors

/-- The process-wide scheduling state: the pending flag and the number of
frame callbacks currently queued with `requestAnimationFrame` (each queued
callback runs `sharedUpdate` exactly once when the frame boundary arrives). -/
structure Sched where
  updatePending : Bool
  passesQueued : Nat
deriving DecidableEq

/-- `scheduleSharedUpdate()`: when no update is pending, set the flag and
queue one frame callback; otherwise do nothing. -/
def scheduleSharedUpdate (s : Sched) : Sched :=
  if s.updatePending then s
  else { updatePending := true, passesQueued := s.passesQueued + 1 }

/-- `n` consecutive calls to `scheduleSharedUpdate` with no frame callback
firing in between. -/
def scheduleN : Nat → Sched → Sched
  | 0, s => s
  | n + 1, s => scheduleN n (scheduleSharedUpdate s)

/-- The process-wide state: the static `instances` array (in construction
order), the counter identifying the next instance, and each instance's
lifecycle state. -/
structure ProcState where
  instances : List Nat
  nextInstance : Nat
  trackers : List (Nat × SysState)
deriving DecidableEq

/-- Apply a function to the lifecycle state of one instance. -/
def updateTracker (ts : List (Nat × SysState)) (inst : Nat)
    (f : SysState → SysState) : List (Nat × SysState) :=
  ts.map (fun p => if p.1 = inst then (p.1, f p.2) else p)

/-- The operations observable at process level: constructing a positioning
engine (the constructor pushes `this` onto the static `instances` array), and
the per-instance pin / cleanup / cleanupAll calls. -/
inductive ProcOp where
  | construct : ProcOp
  | pinOp : Nat → String → Nat → PinGeom → ProcOp
  | unpinOp : Nat → String → ProcOp
  | unpinAllOp : Nat → ProcOp
deriving DecidableEq

/-- Apply one process-level operation. -/
def applyProcOp (st : ProcState) : ProcOp → ProcState
  | .construct =>
      { instances := st.instances ++ [st.nextInstance]
        nextInstance := st.nextInstance + 1
        trackers := st.trackers ++ [(st.nextInstance, initSys)] }
  | .pinOp inst id elem g =>
      { st with trackers := updateTracker st.trackers inst (fun s => pin s id elem g) }
  | .unpinOp inst id =>
      { st with trackers := updateTracker st.trackers inst (fun s => cleanup s id) }
  | .unpinAllOp inst =>
      { st with trackers := updateTracker st.trackers inst cleanupAll }

/-- Run a sequence of process-level operations. -/
def runProc (st : ProcState) (ops : List ProcOp) : ProcState :=
  ops.foldl applyProcOp st

/-! Helper lemmas. -/

/-- Once the pending flag is set, further schedule calls change nothing. -/
theorem scheduleN_pending_fix (n k : Nat) :
    scheduleN n { updatePending := true, passesQueued := k } =
      { updatePending := true, passesQueued := k } := by
  induction n with
  | zero => rfl
  | succ m ih => simpa [scheduleN, scheduleSharedUpdate] using ih

/-- C8: The drag-divergence detector never writes to the DOM: a detector tick
leaves the panel's style record unchanged whether or not the threshold is
exceeded, and the only state fields it may mutate are `offsetX`/`offsetY`
(`width` and `height` are unchanged). -/
theorem detector_never_writes_dom (env : GeomEnv) (state : HoverEditorState)
    (style : PanelStyle) :
    (pollForDrag env state style).2 = style ∧
    (pollForDrag env state style).1.width = state.width ∧
    (pollForDrag env state style).1.height = state.height := by
  simp only [pollForDrag]
  split <;> simp

/-- C2: Scheduling is idempotent and coalescing: for every `n ≥ 1`, `n` calls
to `scheduleSharedUpdate` made while no frame callback has yet fired leave the
pending flag set with exactly one batched pass queued, not `n`. -/
theorem schedule_idempotent_coalescing (n : Nat) (h : 1 ≤ n) :
    scheduleN n { updatePending := false, passesQueued := 0 } =
      { updatePending := true, passesQueued := 1 } := by
  cases n with
  | zero => exact absurd h (by decide)
  | succ m => simpa [scheduleN, scheduleSharedUpdate] using scheduleN_pending_fix m 1

/-- Witness for C2 at `n = 3`. -/
theorem schedule_idempotent_coalescing_witness :
    scheduleN 3 { updatePending := false, passesQueued := 0 } =
      { updatePending := true, passesQueued := 1 } :=
  schedule_idempotent_coalescing 3 (by decide)

/-- C9: Unpinning an unknown identifier is a silent no-op: when the identifier
is not in the tracking map, `cleanup` returns the state entirely unchanged —
no unsubscription, no map change, no change to any tracked editor. -/
theorem unpin_unknown_noop (st : SysState) (id : String)
    (h : mapLookup st.trackingMap id = none) :
    cleanup st id = st := by
  simp [cleanup, h]

/-- Witness for C9: cleaning up an identifier on a fresh instance. -/
theorem unpin_unknown_noop_witness : cleanup initSys "missing" = initSys :=
  unpin_unknown_noop initSys "missing" rfl

/-- C5: Pinning seeds the state with offset equal to the panel screen origin
minus the node viewport origin divided by the pin-time zoom, width equal to
the panel pixel width divided by zoom, and height equal to 1.5 times the
panel pixel height divided by zoom; consequently, for a node whose viewport
origin stays fixed and a panel pinned with screen offset (10, 20) at zoom 1,
the stored model offset is (10, 20) and the next pass at zoom 2 places the
panel at screen offset (20, 40) from the node's viewport origin. -/
theorem pin_seed_and_zoom_invariance (z z2 : ℚ) (cr : Rect) (nb : BBox)
    (pl pt pw ph : ℚ) :
    (initState z cr nb pl pt pw ph).offsetX = (pl - (cr.left + nb.x1)) / z ∧
    (initState z cr nb pl pt pw ph).offsetY = (pt - (cr.top + nb.y1)) / z ∧
    (initState z cr nb pl pt pw ph).width = pw / z ∧
    (initState z cr nb pl pt pw ph).height = ph * (3 / 2) / z ∧
    (computeUpdate z2 cr nb (initState z cr nb pl pt pw ph)).x =
      cr.left + nb.x1 + (pl - (cr.left + nb.x1)) / z * z2 ∧
    (computeUpdate z2 cr nb (initState z cr nb pl pt pw ph)).y =
      cr.top + nb.y1 + (pt - (cr.top + nb.y1)) / z * z2 ∧
    (z = 1 → z2 = 2 → pl - (cr.left + nb.x1) = 10 → pt - (cr.top + nb.y1) = 20 →
      (initState z cr nb pl pt pw ph).offsetX = 10 ∧
      (initState z cr nb pl pt pw ph).offsetY = 20 ∧
      (computeUpdate z2 cr nb (initState z cr nb pl pt pw ph)).x =
        cr.left + nb.x1 + 20 ∧
      (computeUpdate z2 cr nb (initState z cr nb pl pt pw ph)).y =
        cr.top + nb.y1 + 40) := by
  refine ⟨rfl, rfl, rfl, rfl, rfl, rfl, ?_⟩
  intro hz hz2 hx hy
  refine ⟨?_, ?_, ?_, ?_⟩ <;>
    simp [initState, computeUpdate, screenToGraph, graphToScreen, hz, hz2, hx, hy] <;>
    norm_num

/-- Witness for C5: node viewport origin (50, 50), panel at (60, 70), zoom 1,
then a pass at zoom 2. -/
theorem pin_seed_and_zoom_invariance_witness :
    (initState 1 ⟨0, 0⟩ ⟨50, 50⟩ 60 70 5 8).offsetX = 10 ∧
    (initState 1 ⟨0, 0⟩ ⟨50, 50⟩ 60 70 5 8).offsetY = 20 ∧
    (computeUpdate 2 ⟨0, 0⟩ ⟨50, 50⟩ (initState 1 ⟨0, 0⟩ ⟨50, 50⟩ 60 70 5 8)).x =
      0 + 50 + 20 ∧
    (computeUpdate 2 ⟨0, 0⟩ ⟨50, 50⟩ (initState 1 ⟨0, 0⟩ ⟨50, 50⟩ 60 70 5 8)).y =
      0 + 50 + 40 :=
  (pin_seed_and_zoom_invariance 1 2 ⟨0, 0⟩ ⟨50, 50⟩ 60 70 5 8).2.2.2.2.2.2
    rfl rfl (by norm_num) (by norm_num)

/-- C1: Drag attribution without snap-back: when the panel's actual
`left`/`top` differ from the expected position (node viewport origin plus the
model offset converted at the current zoom) by more than the 2-pixel
threshold on either axis, one detector tick adds the full pixel delta,
converted to model units at the current zoom, to `offsetX`/`offsetY`, and the
next batched pass — with unchanged zoom, node box and container rectangle, in
exact arithmetic — writes exactly the manually-set position. -/
theorem drag_attribution_no_snapback (env : GeomEnv) (state : HoverEditorState)
    (style : PanelStyle) (hz : 0 < env.zoom)
    (h : 2 < |(style.left).getD 0 - (env.containerRect.left + env.nodeBox.x1 +
            graphToScreen state.offsetX env.zoom)| ∨
         2 < |(style.top).getD 0 - (env.containerRect.top + env.nodeBox.y1 +
            graphToScreen state.offsetY env.zoom)|) :
    (pollForDrag env state style).1.offsetX =
      state.offsetX + screenToGraph ((style.left).getD 0 -
        (env.containerRect.left + env.nodeBox.x1 +
          graphToScreen state.offsetX env.zoom)) env.zoom ∧
    (pollForDrag env state style).1.offsetY =
      state.offsetY + screenToGraph ((style.top).getD 0 -
        (env.containerRect.top + env.nodeBox.y1 +
          graphToScreen state.offsetY env.zoom)) env.zoom ∧
    (applyUpdate (computeUpdate env.zoom env.containerRect env.nodeBox
        (pollForDrag env state style).1)).left = some ((style.left).getD 0) ∧
    (applyUpdate (computeUpdate env.zoom env.containerRect env.nodeBox
        (pollForDrag env state style).1)).top = some ((style.top).getD 0) := by
  have hz' : env.zoom ≠ 0 := ne_of_gt hz
  have hpoll : (pollForDrag env state style).1 =
      { state with
          offsetX := state.offsetX + screenToGraph ((style.left).getD 0 -
            (env.containerRect.left + env.nodeBox.x1 +
              graphToScreen state.offsetX env.zoom)) env.zoom
          offsetY := state.offsetY + screenToGraph ((style.top).getD 0 -
            (env.containerRect.top + env.nodeBox.y1 +
              graphToScreen state.offsetY env.zoom)) env.zoom } := by
    simp only [pollForDrag]
    rw [if_pos h]
  refine ⟨by rw [hpoll], by rw [hpoll], ?_, ?_⟩ <;>
    rw [hpoll] <;>
    simp only [applyUpdate, computeUpdate, graphToScreen, screenToGraph,
      Option.some.injEq] <;>
    field_simp <;>
    ring

/-- Witness for C1: panel manually moved to `left = 10px` while the expected
position is 0; after one tick the next pass writes back exactly (10, 0). -/
theorem drag_attribution_no_snapback_witness :
    (applyUpdate (computeUpdate 1 ⟨0, 0⟩ ⟨0, 0⟩
        (pollForDrag ⟨1, ⟨0, 0⟩, ⟨0, 0⟩⟩ ⟨0, 0, 1, 1⟩
          ⟨"", some 10, some 0, none, none, ""⟩).1)).left = some (10 : ℚ) ∧
    (applyUpdate (computeUpdate 1 ⟨0, 0⟩ ⟨0, 0⟩
        (pollForDrag ⟨1, ⟨0, 0⟩, ⟨0, 0⟩⟩ ⟨0, 0, 1, 1⟩
          ⟨"", some 10, some 0, none, none, ""⟩).1)).top = some (0 : ℚ) := by
  have h := drag_attribution_no_snapback ⟨1, ⟨0, 0⟩, ⟨0, 0⟩⟩ ⟨0, 0, 1, 1⟩
    ⟨"", some 10, some 0, none, none, ""⟩ (by norm_num)
    (Or.inl (by norm_num [graphToScreen]))
  exact ⟨h.2.2.1, h.2.2.2⟩

/-- A style write to one element leaves every other element's style unchanged. -/
theorem domLookup_setStyle_ne (dom : List (Nat × PanelStyle)) (e e0 : Nat)
    (s : PanelStyle) (hne : e ≠ e0) :
    domLookup (setStyle dom e s) e0 = domLookup dom e0 := by
  induction dom with
  | nil => rfl
  | cons p rest ih =>
      by_cases hp : p.1 = e
      · simp only [setStyle, List.map_cons, if_pos hp, domLookup, if_neg hne]
        rw [if_neg (by rw [hp]; exact hne)]
        exact ih
      · simp only [setStyle, List.map_cons, if_neg hp, domLookup]
        by_cases hp0 : p.1 = e0
        · rw [if_pos hp0, if_pos hp0]
        · rw [if_neg hp0, if_neg hp0]
          exact ih

/-- The write-phase fold touches no element outside the update list. -/
theorem domLookup_foldl_not_mem (us : List (Nat × PanelUpdate)) (e0 : Nat)
    (h : ∀ u ∈ us, u.1 ≠ e0) (dom : List (Nat × PanelStyle)) :
    domLookup (us.foldl (fun d u => setStyle d u.1 (applyUpdate u.2)) dom) e0 =
      domLookup dom e0 := by
  induction us generalizing dom with
  | nil => rfl
  | cons u rest ih =>
      rw [List.foldl_cons,
          ih (fun v hv => h v (List.mem_cons_of_mem u hv)),
          domLookup_setStyle_ne _ _ _ _ (h u (List.mem_cons_self u rest))]

/-- C7: The batched pass always clears the process-wide pending flag when it
completes — including when zero panels are tracked, in which case it is a
no-op on the DOM — and an editor absent from the collected list receives no
write: its style is unchanged by the pass. -/
theorem pass_clears_pending_and_skips_removed (env : PassEnv)
    (instanceMaps : List (List (String × CollectedEditor))) (updatePending : Bool)
    (dom : List (Nat × PanelStyle)) :
    (sharedUpdate env instanceMaps updatePending dom).1 = false ∧
    (collectAll instanceMaps = [] →
      (sharedUpdate env instanceMaps updatePending dom).2 = dom) ∧
    (∀ e0, (∀ ce ∈ collectAll instanceMaps, ce.elem ≠ e0) →
      domLookup (sharedUpdate env instanceMaps updatePending dom).2 e0 =
        domLookup dom e0) := by
  refine ⟨?_, ?_, ?_⟩
  · simp only [sharedUpdate]
    split <;> rfl
  · intro h
    simp [sharedUpdate, h]
  · intro e0 h
    simp only [sharedUpdate]
    split
    · rfl
    · apply domLookup_foldl_not_mem
      intro u hu
      simp only [List.mem_map] at hu
      obtain ⟨ce, hce, rfl⟩ := hu
      exact h ce hce

/-- Witness for C7: a pass over one tracked editor (element 5) clears the
flag; a pass with nothing tracked leaves the document unchanged; element 7,
absent from the collected list, keeps its style. -/
theorem pass_clears_pending_and_skips_removed_witness :
    (sharedUpdate ⟨1, ⟨0, 0⟩⟩ [[("a", ⟨5, ⟨0, 0⟩, ⟨0, 0, 1, 1⟩⟩)]] true []).1 = false ∧
    (sharedUpdate ⟨1, ⟨0, 0⟩⟩ [] true [(7, ⟨"", none, none, none, none, ""⟩)]).2 =
      [(7, ⟨"", none, none, none, none, ""⟩)] ∧
    domLookup (sharedUpdate ⟨1, ⟨0, 0⟩⟩ [[("a", ⟨5, ⟨0, 0⟩, ⟨0, 0, 1, 1⟩⟩)]] true
        [(7, ⟨"", none, none, none, none, ""⟩)]).2 7 =
      domLookup [(7, ⟨"", none, none, none, none, ""⟩)] 7 := by
  refine ⟨(pass_clears_pending_and_skips_removed ⟨1, ⟨0, 0⟩⟩
      [[("a", ⟨5, ⟨0, 0⟩, ⟨0, 0, 1, 1⟩⟩)]] true []).1,
    (pass_clears_pending_and_skips_removed ⟨1, ⟨0, 0⟩⟩ [] true
      [(7, ⟨"", none, none, none, none, ""⟩)]).2.1 rfl,
    (pass_clears_pending_and_skips_removed ⟨1, ⟨0, 0⟩⟩
      [[("a", ⟨5, ⟨0, 0⟩, ⟨0, 0, 1, 1⟩⟩)]] true
      [(7, ⟨"", none, none, none, none, ""⟩)]).2.2 7 ?_⟩
  intro ce hce
  simp only [collectAll, List.map_cons, List.map_nil, List.nil_append,
    List.mem_append, List.mem_singleton, List.not_mem_nil, or_false] at hce
  subst hce
  decide

/-- Every event of the read phase is a read, not a write. -/
theorem readEvents_isWrite_false (l : List CollectedEditor) :
    ∀ ev ∈ readEvents l, ev.isWrite = false := by
  intro ev hev
  simp only [readEvents, List.mem_cons, List.mem_map] at hev
  rcases hev with rfl | hev
  · rfl
  rcases hev with rfl | hev
  · rfl
  obtain ⟨e, -, rfl⟩ := hev
  rfl

/-- Every event of the write phase is a write, not a read. -/
theorem writeEvents_isRead_false (l : List CollectedEditor) :
    ∀ ev ∈ writeEvents l, ev.isRead = false := by
  intro ev hev
  simp only [writeEvents, List.mem_map] at hev
  obtain ⟨e, -, rfl⟩ := hev
  rfl

/-- In a concatenation whose first part falsifies `Q` and whose second part
falsifies `P`, any position satisfying `P` comes before any position
satisfying `Q`. -/
theorem append_positions_ordered {α : Type} (P Q : α → Bool) (l1 l2 : List α)
    (h1 : ∀ a ∈ l1, Q a = false) (h2 : ∀ a ∈ l2, P a = false)
    (i j : Nat) (hi : i < (l1 ++ l2).length) (hj : j < (l1 ++ l2).length)
    (hP : P ((l1 ++ l2).get ⟨j, hj⟩) = true)
    (hQ : Q ((l1 ++ l2).get ⟨i, hi⟩) = true) :
    j < i := by
  have hjlt : j < l1.length := by
    by_contra hge
    push_neg at hge
    have hmem : (l1 ++ l2).get ⟨j, hj⟩ ∈ l2 := by
      rw [List.get_eq_getElem, List.getElem_append_right hge]
      exact List.get_mem _ _ _
    rw [h2 _ hmem] at hP
    exact Bool.false_ne_true hP
  have hige : l1.length ≤ i := by
    by_contra hlt
    push_neg at hlt
    have hmem : (l1 ++ l2).get ⟨i, hi⟩ ∈ l1 := by
      rw [List.get_eq_getElem, List.getElem_append_left hlt]
      exact List.get_mem _ _ _
    rw [h1 _ hmem] at hQ
    exact Bool.false_ne_true hQ
  omega

/-- C3: Read/write separation: within one execution of the batched pass,
every geometry read (zoom, container rectangle, each tracked panel's node
bounding box) occurs strictly before any DOM write to any panel element. -/
theorem reads_precede_writes (instanceMaps : List (List (String × CollectedEditor)))
    (i j : Nat) (hi : i < (sharedUpdateTrace instanceMaps).length)
    (hj : j < (sharedUpdateTrace instanceMaps).length)
    (hr : ((sharedUpdateTrace instanceMaps).get ⟨j, hj⟩).isRead = true)
    (hw : ((sharedUpdateTrace instanceMaps).get ⟨i, hi⟩).isWrite = true) :
    j < i := by
  generalize ht : sharedUpdateTrace instanceMaps = tr at hi hj hr hw
  have hcase : tr = ([] : List PassEvent) ∨
      tr = readEvents (collectAll instanceMaps) ++ writeEvents (collectAll instanceMaps) := by
    rw [← ht]
    simp only [sharedUpdateTrace]
    split
    · exact Or.inl rfl
    · exact Or.inr rfl
  rcases hcase with rfl | rfl
  · exact absurd hi (by simp)
  · exact append_positions_ordered PassEvent.isRead PassEvent.isWrite
      (readEvents (collectAll instanceMaps)) (writeEvents (collectAll instanceMaps))
      (readEvents_isWrite_false _) (writeEvents_isRead_false _) i j hi hj hr hw

/-- Witness for C3: with one tracked editor the trace is
`[readZoom, readContainerRect, readNodeBox 5, writeStyle 5]`; the write at
position 3 comes after the read at position 0. -/
theorem reads_precede_writes_witness :
    (0 : Nat) < 3 :=
  reads_precede_writes [[("a", ⟨5, ⟨0, 0⟩, ⟨0, 0, 1, 1⟩⟩)]] 3 0
    (by decide) (by decide) (by decide) (by decide)

/-- Releasing a registration handle removes it from the live set. -/
theorem not_mem_removeSub_self (subs : List Nat) (t : Nat) :
    t ∉ removeSub subs t := by
  simp [removeSub]

/-- Releasing one handle never resurrects another. -/
theorem not_mem_removeSub_of_not_mem (subs : List Nat) (t u : Nat)
    (h : t ∉ subs) : t ∉ removeSub subs u := by
  intro hmem
  exact h (List.mem_of_mem_filter hmem)

/-- After the seven releases of a teardown, none of the editor's seven
registration handles is live. -/
theorem tokens_removed (subs : List Nat) (te : TrackedEditor) :
    ∀ t ∈ TrackedEditor.tokens te,
      t ∉ removeSub (removeSub (removeSub (removeSub (removeSub (removeSub (removeSub
        subs te.viewportSub) te.positionSub) te.resizeObsSub) te.mutationObsSub)
        te.containerObsSub) te.windowResizeSub) te.dragPollSub := by
  intro t htok
  simp only [TrackedEditor.tokens, List.mem_cons, List.not_mem_nil, or_false] at htok
  rcases htok with rfl | rfl | rfl | rfl | rfl | rfl | rfl <;>
    (repeat first
      | exact not_mem_removeSub_self _ _
      | apply not_mem_removeSub_of_not_mem)

/-- Deleting an identifier from the tracking map makes its lookup fail. -/
theorem mapLookup_filter_self (m : List (String × TrackedEditor)) (id : String) :
    mapLookup (m.filter (fun p => ¬(p.1 = id))) id = none := by
  induction m with
  | nil => rfl
  | cons p rest ih =>
      by_cases hp : p.1 = id
      · simpa [List.filter_cons, hp] using ih
      · simpa [List.filter_cons, hp, mapLookup] using ih

/-- C4: The liveness-based teardown misses the drag-poll timer: for the
panel pinned as `"a"` on a fresh instance (registration handles 0 through 6,
drag-poll interval handle 6), the removal-observer teardown deletes the
identifier from the tracking map and releases the six other registrations,
but the closure's `clearInterval` acts on the never-assigned local
`dragPollInterval`, so handle 6 stays live and the drag-poll timer can still
fire a tick — contradicting the claim that the teardown clears that panel's
drag-poll interval timer so no further tick runs. -/
theorem liveness_teardown_misses_drag_timer :
    mapLookup (mutationObserverTick (pin initSys "a" 0 ⟨1, ⟨0, 0⟩, ⟨0, 0⟩, 0, 0, 0, 0⟩)
      "a" ⟨0, initState 1 ⟨0, 0⟩ ⟨0, 0⟩ 0 0 0 0, 0, 1, 2, 3, 4, 5, 6⟩
      false).trackingMap "a" = none ∧
    (mutationObserverTick (pin initSys "a" 0 ⟨1, ⟨0, 0⟩, ⟨0, 0⟩, 0, 0, 0, 0⟩)
      "a" ⟨0, initState 1 ⟨0, 0⟩ ⟨0, 0⟩ 0 0 0 0, 0, 1, 2, 3, 4, 5, 6⟩
      false).liveSubs = [6] ∧
    (6 : Nat) ∈ (mutationObserverTick (pin initSys "a" 0 ⟨1, ⟨0, 0⟩, ⟨0, 0⟩, 0, 0, 0, 0⟩)
      "a" ⟨0, initState 1 ⟨0, 0⟩ ⟨0, 0⟩ 0 0 0 0, 0, 1, 2, 3, 4, 5, 6⟩
      false).liveSubs ∧
    timerCanFire (mutationObserverTick (pin initSys "a" 0 ⟨1, ⟨0, 0⟩, ⟨0, 0⟩, 0, 0, 0, 0⟩)
      "a" ⟨0, initState 1 ⟨0, 0⟩ ⟨0, 0⟩ 0 0 0 0, 0, 1, 2, 3, 4, 5, 6⟩ false) 6 = true := by
  refine ⟨?_, ?_, ?_, ?_⟩
  · simp [mutationObserverTick, cleanupClosure, clearIntervalLocal, pin, initSys,
      cleanup, mapSet, mapLookup, removeSub]
  · decide
  · decide
  · decide

/-- The identifiers in the tracking map are pairwise distinct. -/
def keysNodup (st : SysState) : Prop :=
  (st.trackingMap.map Prod.fst).Nodup

/-- Every registration handle held by a tracked editor was allocated below
the fresh-token counter. -/
def subsBound (st : SysState) : Prop :=
  ∀ p ∈ st.trackingMap, ∀ t ∈ TrackedEditor.tokens p.2, t < st.nextToken

/-- Well-formedness of an instance state. -/
def WF (st : SysState) : Prop :=
  keysNodup st ∧ subsBound st

/-- A fresh instance is well formed. -/
theorem wf_initSys : WF initSys := by
  constructor
  · simp [keysNodup, initSys]
  · intro p hp
    simp [initSys] at hp

/-- A failed lookup means the identifier is not among the keys. -/
theorem not_mem_keys_of_mapLookup_none (m : List (String × TrackedEditor)) (id : String)
    (h : mapLookup m id = none) : id ∉ m.map Prod.fst := by
  induction m with
  | nil => simp
  | cons p rest ih =>
      rw [mapLookup] at h
      by_cases hp : p.1 = id
      · rw [if_pos hp] at h
        exact absurd h (by simp)
      · rw [if_neg hp] at h
        simp only [List.map_cons, List.mem_cons, not_or]
        exact ⟨fun he => hp he.symm, ih h⟩

/-- A successful lookup yields an actual entry of the map. -/
theorem mapLookup_some_mem (m : List (String × TrackedEditor)) (id : String)
    (te : TrackedEditor) (h : mapLookup m id = some te) : (id, te) ∈ m := by
  induction m with
  | nil => simp [mapLookup] at h
  | cons p rest ih =>
      rw [mapLookup] at h
      by_cases hp : p.1 = id
      · rw [if_pos hp] at h
        obtain ⟨a, b⟩ := p
        obtain rfl : b = te := by simpa using h
        obtain rfl : a = id := hp
        exact List.mem_cons_self _ _
      · rw [if_neg hp] at h
        exact List.mem_cons_of_mem _ (ih h)

/-- When the identifier is absent, `Map.set` appends a new binding. -/
theorem mapSet_of_none (m : List (String × TrackedEditor)) (id : String)
    (te : TrackedEditor) (h : mapLookup m id = none) :
    mapSet m id te = m ++ [(id, te)] := by
  simp [mapSet, h]

/-- `cleanup` keeps the fresh-token counter. -/
theorem cleanup_nextToken (st : SysState) (id : String) :
    (cleanup st id).nextToken = st.nextToken := by
  unfold cleanup
  cases mapLookup st.trackingMap id <;> rfl

/-- `cleanup` preserves well-formedness. -/
theorem wf_cleanup (st : SysState) (id : String) (h : WF st) : WF (cleanup st id) := by
  unfold cleanup
  cases mapLookup st.trackingMap id with
  | none => exact h
  | some te =>
      refine ⟨?_, ?_⟩
      · exact List.Nodup.sublist (List.Sublist.map _ (List.filter_sublist _)) h.1
      · intro p hp t ht
        exact h.2 p (List.mem_of_mem_filter hp) t ht

/-- After the guard at the top of `pin`, the identifier is untracked. -/
theorem mapLookup_after_guard (st : SysState) (id : String) :
    mapLookup (if (mapLookup st.trackingMap id).isSome then cleanup st id
      else st).trackingMap id = none := by
  cases hm : mapLookup st.trackingMap id with
  | none => simpa [hm] using hm
  | some te =>
      simp only [Option.isSome_some, if_true]
      unfold cleanup
      rw [hm]
      exact mapLookup_filter_self st.trackingMap id

/-- The state assembled at the end of `pin` is well formed. -/
theorem wf_pin_aux (m : List (String × TrackedEditor)) (subs : List Nat) (n : Nat)
    (id : String) (te : TrackedEditor)
    (hnodup : (m.map Prod.fst).Nodup)
    (hbound : ∀ p ∈ m, ∀ t ∈ TrackedEditor.tokens p.2, t < n)
    (hnone : mapLookup m id = none)
    (htok : ∀ t ∈ TrackedEditor.tokens te, t < n + 7) :
    WF { trackingMap := m ++ [(id, te)]
         liveSubs := subs ++ [n, n + 1, n + 2, n + 3, n + 4, n + 5, n + 6]
         nextToken := n + 7 } := by
  refine ⟨?_, ?_⟩
  · simp only [keysNodup, List.map_append, List.map_cons, List.map_nil]
    rw [List.nodup_append]
    refine ⟨hnodup, by simp, ?_⟩
    intro a ha hb
    simp only [List.mem_singleton] at hb
    exact not_mem_keys_of_mapLookup_none m _ hnone (hb ▸ ha)
  · intro p hp t ht
    rcases List.mem_append.mp hp with hp1 | hp2
    · refine lt_of_lt_of_le (hbound p hp1 t ht) ?_
      show n ≤ n + 7
      omega
    · simp only [List.mem_singleton] at hp2
      subst hp2
      exact htok t ht

/-- `pin` preserves well-formedness. -/
theorem wf_pin (st : SysState) (id : String) (elem : Nat) (g : PinGeom) (h : WF st) :
    WF (pin st id elem g) := by
  have h1 : WF (if (mapLookup st.trackingMap id).isSome then cleanup st id else st) := by
    split
    · exact wf_cleanup st id h
    · exact h
  have hnone := mapLookup_after_guard st id
  simp only [pin]
  rw [mapSet_of_none _ _ _ hnone]
  exact wf_pin_aux _ _ _ _ _ h1.1 h1.2 hnone
    (by intro t ht; simp [TrackedEditor.tokens] at ht; omega)

/-- A fold of `cleanup` over any identifier list preserves well-formedness. -/
theorem wf_foldl_cleanup (l : List String) (st : SysState) (h : WF st) :
    WF (l.foldl cleanup st) := by
  induction l generalizing st with
  | nil => exact h
  | cons a rest ih => exact ih _ (wf_cleanup st a h)

/-- `cleanupAll` preserves well-formedness. -/
theorem wf_cleanupAll (st : SysState) (h : WF st) : WF (cleanupAll st) :=
  wf_foldl_cleanup _ st h

/-- Every operation preserves well-formedness. -/
theorem wf_applyOp (st : SysState) (op : Op) (h : WF st) : WF (applyOp st op) := by
  cases op with
  | pinTo id elem g => exact wf_pin st id elem g h
  | unpin id => exact wf_cleanup st id h
  | unpinAll => exact wf_cleanupAll st h

/-- Every state reachable from a fresh instance is well formed. -/
theorem wf_runOps (ops : List Op) : WF (runOps initSys ops) := by
  suffices h : ∀ st, WF st → WF (runOps st ops) from h initSys wf_initSys
  induction ops with
  | nil => exact fun st h => h
  | cons op rest ih => exact fun st h => ih (applyOp st op) (wf_applyOp st op h)

/-- An untracked identifier has zero entries. -/
theorem countKey_eq_zero_of_none (m : List (String × TrackedEditor)) (id : String)
    (h : mapLookup m id = none) : countKey m id = 0 := by
  induction m with
  | nil => rfl
  | cons p rest ih =>
      rw [mapLookup] at h
      by_cases hp : p.1 = id
      · rw [if_pos hp] at h
        exact absurd h (by simp)
      · rw [if_neg hp] at h
        simpa [countKey, List.filter_cons, hp] using ih h

/-- An identifier absent from the keys has zero entries. -/
theorem countKey_eq_zero_of_not_mem (m : List (String × TrackedEditor)) (id : String)
    (h : id ∉ m.map Prod.fst) : countKey m id = 0 := by
  induction m with
  | nil => rfl
  | cons p rest ih =>
      simp only [List.map_cons, List.mem_cons, not_or] at h
      have hp : ¬(p.1 = id) := fun he => h.1 he.symm
      simpa [countKey, List.filter_cons, hp] using ih h.2

/-- Appending a binding for `id` adds one entry for `id`. -/
theorem countKey_append_self (m : List (String × TrackedEditor)) (id : String)
    (te : TrackedEditor) :
    countKey (m ++ [(id, te)]) id = countKey m id + 1 := by
  simp [countKey, List.filter_append]

/-- Distinct keys give at most one entry per identifier. -/
theorem countKey_le_one (m : List (String × TrackedEditor)) (id : String)
    (h : (m.map Prod.fst).Nodup) : countKey m id ≤ 1 := by
  induction m with
  | nil => simp [countKey]
  | cons p rest ih =>
      simp only [List.map_cons, List.nodup_cons] at h
      by_cases hp : p.1 = id
      · have hz : countKey rest id = 0 :=
          countKey_eq_zero_of_not_mem rest id (hp ▸ h.1)
        simp [countKey, List.filter_cons, hp] at hz ⊢
        exact hz
      · simpa [countKey, List.filter_cons, hp] using ih h.2

/-- Re-pinning a tracked identifier leaves none of the previous registration's
handles live: the guard tears the old editor down, and the freshly allocated
handles differ from all old ones. -/
theorem pin_liveSubs_no_old (st : SysState) (id : String) (elem : Nat) (g : PinGeom)
    (te : TrackedEditor) (hte : mapLookup st.trackingMap id = some te)
    (hbound : ∀ t ∈ TrackedEditor.tokens te, t < st.nextToken) :
    ∀ t ∈ TrackedEditor.tokens te, t ∉ (pin st id elem g).liveSubs := by
  intro t htok
  have hclean : cleanup st id = cleanupEditor st id te := by
    unfold cleanup
    rw [hte]
  simp only [pin, hte, Option.isSome_some, if_true, hclean]
  rw [List.mem_append]
  push_neg
  constructor
  · have hrem := tokens_removed st.liveSubs te t htok
    simpa [cleanupEditor] using hrem
  · have hb := hbound t htok
    simp only [cleanupEditor, List.mem_cons, List.not_mem_nil, or_false, not_or]
    omega

/-- After any `pin`, the identifier has exactly one tracking-map entry. -/
theorem pin_countKey_one (st : SysState) (id : String) (elem : Nat) (g : PinGeom) :
    countKey (pin st id elem g).trackingMap id = 1 := by
  have hnone := mapLookup_after_guard st id
  simp only [pin]
  rw [mapSet_of_none _ _ _ hnone, countKey_append_self,
    countKey_eq_zero_of_none _ _ hnone]

/-- C6: At most one registration per identifier: after every sequence of
pin/unpin operations from a fresh instance the tracking map holds at most one
entry for any identifier; pinning again leaves exactly one entry; and when
the identifier was already tracked, the previous registration is fully torn
down first — none of its handles survives the re-pin. -/
theorem single_registration_per_id (ops : List Op) (id : String) (elem : Nat)
    (g : PinGeom) :
    countKey (runOps initSys ops).trackingMap id ≤ 1 ∧
    countKey (pin (runOps initSys ops) id elem g).trackingMap id = 1 ∧
    (∀ te, mapLookup (runOps initSys ops).trackingMap id = some te →
      ∀ t ∈ TrackedEditor.tokens te, t ∉ (pin (runOps initSys ops) id elem g).liveSubs) := by
  have hwf := wf_runOps ops
  refine ⟨countKey_le_one _ _ hwf.1, pin_countKey_one _ _ _ _, ?_⟩
  intro te hte
  exact pin_liveSubs_no_old _ id elem g te hte
    (hwf.2 (id, te) (mapLookup_some_mem _ _ _ hte))

/-- Witness for C6: one pin of `"a"` followed by a re-pin; handle 0 of the
first registration is gone. -/
theorem single_registration_per_id_witness :
    countKey (runOps initSys
      [Op.pinTo "a" 0 ⟨1, ⟨0, 0⟩, ⟨0, 0⟩, 0, 0, 0, 0⟩]).trackingMap "a" ≤ 1 ∧
    countKey (pin (runOps initSys [Op.pinTo "a" 0 ⟨1, ⟨0, 0⟩, ⟨0, 0⟩, 0, 0, 0, 0⟩])
      "a" 1 ⟨1, ⟨0, 0⟩, ⟨0, 0⟩, 0, 0, 0, 0⟩).trackingMap "a" = 1 ∧
    (0 : Nat) ∉ (pin (runOps initSys [Op.pinTo "a" 0 ⟨1, ⟨0, 0⟩, ⟨0, 0⟩, 0, 0, 0, 0⟩])
      "a" 1 ⟨1, ⟨0, 0⟩, ⟨0, 0⟩, 0, 0, 0, 0⟩).liveSubs := by
  have h := single_registration_per_id
    [Op.pinTo "a" 0 ⟨1, ⟨0, 0⟩, ⟨0, 0⟩, 0, 0, 0, 0⟩] "a" 1
    ⟨1, ⟨0, 0⟩, ⟨0, 0⟩, 0, 0, 0, 0⟩
  refine ⟨h.1, h.2.1, ?_⟩
  exact h.2.2 ⟨0, initState 1 ⟨0, 0⟩ ⟨0, 0⟩ 0 0 0 0, 0, 1, 2, 3, 4, 5, 6⟩
    (by simp [runOps, List.foldl_cons, List.foldl_nil, applyOp, pin, initSys,
      cleanup, mapSet, mapLookup]) 0 (by decide)

/-- Every single process-level operation either keeps the instance list or
appends to it. -/
theorem applyProcOp_instances (st : ProcState) (op : ProcOp) :
    ∃ t, (applyProcOp st op).instances = st.instances ++ t := by
  cases op with
  | construct => exact ⟨[st.nextInstance], rfl⟩
  | pinOp inst id elem g => exact ⟨[], (List.append_nil _).symm⟩
  | unpinOp inst id => exact ⟨[], (List.append_nil _).symm⟩
  | unpinAllOp inst => exact ⟨[], (List.append_nil _).symm⟩

/-- C10: The process-wide instance list is append-only: constructing a
positioning engine appends it to the static instances array, no operation —
including unpinning every panel via `cleanupAll` — ever removes an instance,
and after any operation sequence the old list is an initial segment of the
new one, so every instance ever constructed is iterated by every subsequent
batched pass. -/
theorem instance_list_append_only (st : ProcState) (ops : List ProcOp) :
    (∃ t, (runProc st ops).instances = st.instances ++ t) ∧
    (applyProcOp st ProcOp.construct).instances = st.instances ++ [st.nextInstance] ∧
    (∀ inst, (applyProcOp st (ProcOp.unpinAllOp inst)).instances = st.instances) := by
  refine ⟨?_, rfl, fun inst => rfl⟩
  induction ops generalizing st with
  | nil => exact ⟨[], (List.append_nil _).symm⟩
  | cons op rest ih =>
      obtain ⟨t1, h1⟩ := applyProcOp_instances st op
      obtain ⟨t2, h2⟩ := ih (applyProcOp st op)
      exact ⟨t1 ++ t2, by rw [runProc] at h2 ⊢; rw [List.foldl_cons, h2, h1,
        List.append_assoc]⟩
